import Mathlib

/-!
Verification development for the upbit-alpha-desk listing-strategy pipeline.

The definitions below are a shallow embedding of the TypeScript sources:
  * src/services/listingStrategyService.ts  (scenario grid, backtest engine,
    report builder),
  * src/clients/redisClient.ts              (UpbitRateLimiter: throttle,
    isRetryable, execute),
  * src/services/listingStrategyScheduler.ts and
    src/services/listingCalendarScheduler.ts (scheduler state machines,
    snapshots, fetchOldestDate).

Numbers are modelled with exact rationals (ℚ); timestamps with Int/ℕ
milliseconds.  External effects (HTTP fetches, Date parsing and formatting,
wall-clock reads) are modelled as oracle functions passed in through small
environment records, so every definition stays executable and total.
-/

namespace UpbitAlphaDesk

/-- Models JavaScript `Number(x.toFixed(2))`: rounding to 2 decimal places.
JS rounds positive decimal ties up, which agrees with Mathlib `round`
(round-half-up); the claims below never touch a negative exact tie. -/
def round2 (x : ℚ) : ℚ := (round (x * 100) : ℚ) / 100

/-- Models JavaScript `Number(x.toFixed(1))`: rounding to 1 decimal place. -/
def round1 (x : ℚ) : ℚ := (round (x * 10) : ℚ) / 10

/-- The pre-rounding return percentage of a short position, exactly the
source expression `((entryPrice - exitPrice) / entryPrice) * 100` at
listingStrategyService.ts:180. -/
def rawReturn (entryPrice exitPrice : ℚ) : ℚ :=
  (entryPrice - exitPrice) / entryPrice * 100

/-- The source union type `'HIGH' | 'MID' | 'LOW'`. -/
inductive PriceProfile where
  | HIGH
  | MID
  | LOW
deriving DecidableEq

/-- String id of a price profile, as used to build scenario ids. -/
def profileKey : PriceProfile → String
  | .HIGH => "HIGH"
  | .MID => "MID"
  | .LOW => "LOW"

/-- One entry of the source `BASE_SCENARIOS` constant. -/
structure BaseScenario where
  id : String
  label : String
  description : String
  entryHours : ℕ
deriving DecidableEq

/-- One entry of the source `PRICE_PROFILES` constant. -/
structure PriceProfileDef where
  id : PriceProfile
  label : String
deriving DecidableEq

/-- The source `BASE_SCENARIOS` list (listingStrategyService.ts:65). -/
def BASE_SCENARIOS : List BaseScenario :=
  [ ⟨"D0_OPEN", "상장 직후 숏", "상장 순간에 진입 후 24시간 보유", 0⟩,
    ⟨"D0_12H", "상장 +12시간 숏", "상장 12시간 뒤 진입 후 24시간 보유", 12⟩,
    ⟨"D1_OPEN", "상장 +1일 숏", "상장 다음날 진입 후 24시간 보유", 24⟩,
    ⟨"D3_OPEN", "상장 +3일 숏", "상장 3일 뒤 진입 후 24시간 보유", 72⟩,
    ⟨"D5_OPEN", "상장 +5일 숏", "상장 5일 뒤 진입 후 24시간 보유", 120⟩ ]

/-- The source `PRICE_PROFILES` list (listingStrategyService.ts:79). -/
def PRICE_PROFILES : List PriceProfileDef :=
  [ ⟨.HIGH, "최고가"⟩, ⟨.MID, "중간값"⟩, ⟨.LOW, "최저가"⟩ ]

/-- The source `ListingScenarioDefinition` interface. -/
structure ListingScenarioDefinition where
  id : String
  label : String
  description : String
  entryHours : ℕ
  priceProfile : PriceProfile
deriving DecidableEq

/-- The source `LISTING_SCENARIOS` grid: cross product of base scenarios and
price profiles (listingStrategyService.ts:85). -/
def LISTING_SCENARIOS : List ListingScenarioDefinition :=
  BASE_SCENARIOS.flatMap fun base =>
    PRICE_PROFILES.map fun profile =>
      { id := base.id ++ "_" ++ profileKey profile.id,
        label := base.label ++ " · " ++ profile.label,
        description := base.description ++ " (" ++ profile.label ++ " 진입)",
        entryHours := base.entryHours,
        priceProfile := profile.id }

/-- Source constant `HOLD_HOURS = 24`. -/
def HOLD_HOURS : Int := 24

/-- Source constant `MS_PER_HOUR = 60 * 60 * 1000`. -/
def MS_PER_HOUR : Int := 60 * 60 * 1000

/-- Source constant `MAX_ENTRY_HOURS = Math.max(...LISTING_SCENARIOS.map(s =>
s.entryHours))`; modelled with a fold (all entries are nonnegative). -/
def MAX_ENTRY_HOURS : ℕ := (LISTING_SCENARIOS.map (·.entryHours)).foldl max 0

/-- Source constant `DEFAULT_MAX_COINS = 150`. -/
def DEFAULT_MAX_COINS : ℕ := 150

/-- The `CoinInfo` shape used by the report builder (from marketService). -/
structure CoinInfo where
  symbol : String
  name : String
  koreanName : String
  market : String
deriving DecidableEq

/-- The source `UpbitDailyCandle` interface. -/
structure UpbitDailyCandle where
  candle_date_time_kst : String
  candle_date_time_utc : String
  opening_price : ℚ
  high_price : ℚ
  low_price : ℚ
  trade_price : ℚ
deriving DecidableEq

/-- The source `BybitKline` interface (bybitClient).  The source field
`open` is a Lean keyword, hence `openPrice`; the pipeline never reads it. -/
structure BybitKline where
  start : Int
  openPrice : ℚ
  high : ℚ
  low : ℚ
  close : ℚ
deriving DecidableEq

/-- Return value of `buildProfilePrices`: `Record<PriceProfile, number |
null>`, with `none` for `null`. -/
structure ProfilePrices where
  HIGH : Option ℚ
  MID : Option ℚ
  LOW : Option ℚ
deriving DecidableEq

/-- Dynamic record access `profilePrices[profile.id]`. -/
def ProfilePrices.get (pp : ProfilePrices) : PriceProfile → Option ℚ
  | .HIGH => pp.HIGH
  | .MID => pp.MID
  | .LOW => pp.LOW

/-- The source `buildProfilePrices` (listingStrategyService.ts:255).  The
`Number.isFinite` filters and the final finiteness check are identities in
the exact-rational model (every ℚ is finite), so `highs`/`lows` are the
plain field projections and the nonempty checks collapse to the first one. -/
def buildProfilePrices (klines : List BybitKline) : ProfilePrices :=
  match klines with
  | [] => { HIGH := none, MID := none, LOW := none }
  | k :: rest =>
    let maxHigh := rest.foldl (fun m kk => max m kk.high) k.high
    let minLow := rest.foldl (fun m kk => min m kk.low) k.low
    { HIGH := some maxHigh, LOW := some minLow, MID := some ((maxHigh + minLow) / 2) }

/-- The source `ScenarioResult` interface. -/
structure ScenarioResult where
  scenarioId : String
  label : String
  date : String
  entryHours : ℕ
  entryPrice : ℚ
  exitPrice : ℚ
  returnPct : ℚ
  priceProfile : PriceProfile
  liquidated : Bool
deriving DecidableEq

/-- The source `CoinListingAnalysis` interface. -/
structure CoinListingAnalysis where
  symbol : String
  market : String
  name : String
  koreanName : String
  listingDate : String
  scenarios : List ScenarioResult
deriving DecidableEq

/-- The source `ScenarioSummary` interface (`null` becomes `none`). -/
structure ScenarioSummary where
  scenarioId : String
  label : String
  description : String
  entryHours : ℕ
  sampleSize : ℕ
  averageReturn : Option ℚ
  successRate : Option ℚ
deriving DecidableEq

/-- The source `ListingStrategyReport` interface. -/
structure ListingStrategyReport where
  generatedAt : String
  months : ℕ
  coinsAnalyzed : ℕ
  scenarioDefinitions : List ListingScenarioDefinition
  summary : List ScenarioSummary
  coins : List CoinListingAnalysis
deriving DecidableEq

/-- The per-scenario accumulator `{ totalReturn, wins, count }` kept in the
source `summaryMap`. -/
structure SummaryStats where
  totalReturn : ℚ
  wins : ℕ
  count : ℕ
deriving DecidableEq

/-- Insertion of one element into a sorted list (helper for `sortBy`). -/
def insertSorted (le : α → α → Bool) (a : α) : List α → List α
  | [] => [a]
  | b :: l => if le a b then a :: b :: l else b :: insertSorted le a l

/-- Stable comparator sort modelling `Array.prototype.sort`; the pipeline
only ever inspects the head of the sorted list, so any stable sorting
algorithm is an adequate model. -/
def sortBy (le : α → α → Bool) : List α → List α
  | [] => []
  | a :: l => insertSorted le a (sortBy le l)

/-- Oracle environment for `buildListingStrategyReport`.  Fetches return
`none` when the underlying awaited call would throw (the per-coin
`try/catch` then skips the coin); the Date-handling helpers of the source
are modelled as uninterpreted functions because no claim depends on JS
calendar arithmetic. -/
structure FetchEnv where
  /-- Models `fetchUpbitDailyCandles` (rate-limited GET of daily candles). -/
  fetchUpbitDailyCandles : CoinInfo → Option (List UpbitDailyCandle)
  /-- Models `fetchBybitHourlyKlines(symbol, start, end, interval)`. -/
  fetchBybitHourlyKlines : String → Int → Int → Option (List BybitKline)
  /-- Models the cutoff `new Date()` shifted back by the given number of
  months (listingStrategyService.ts:118), as epoch milliseconds. -/
  monthsAgoMs : ℕ → Int
  /-- Models `new Date(s + "T00:00:00+09:00").getTime()`. -/
  parseKstDateMs : String → Int
  /-- Models the source `adjustListingDate` (KST timestamp minus one day,
  formatted as an ISO date). -/
  adjustListingDate : String → String
  /-- Models `new Date(ms).toISOString().substring(0, 10)`. -/
  toIsoDate : Int → String
  /-- Models `new Date().toISOString()` at report creation time. -/
  generatedAt : String

/-- The source `isRecentListing(date, cutoff)`. -/
def isRecentListing (env : FetchEnv) (date : String) (cutoffMs : Int) : Bool :=
  decide (cutoffMs ≤ env.parseKstDateMs date)

/-- The inner profile loop of the report builder
(listingStrategyService.ts:177-203): one `ScenarioResult` per profile with a
nonzero profile price whose scenario id resolves in the definition map.
`returnPct` is the raw (unrounded) return; the stored field is its rounded
value while `liquidated` compares the raw value, exactly as in the source. -/
def evalProfiles (pp : ProfilePrices) (exitPrice : ℚ) (dateStr : String)
    (base : BaseScenario) : List ScenarioResult :=
  PRICE_PROFILES.filterMap fun profile =>
    match pp.get profile.id with
    | none => none
    | some entryPrice =>
      if entryPrice = 0 then none
      else
        let returnPct := rawReturn entryPrice exitPrice
        let scenarioId := base.id ++ "_" ++ profileKey profile.id
        match LISTING_SCENARIOS.find? (fun d => d.id == scenarioId) with
        | none => none
        | some scenarioDef =>
          some { scenarioId := scenarioId,
                 label := scenarioDef.label,
                 date := dateStr,
                 entryHours := base.entryHours,
                 entryPrice := entryPrice,
                 exitPrice := exitPrice,
                 returnPct := round2 returnPct,
                 priceProfile := profile.id,
                 liquidated := decide (returnPct ≤ -90) }

/-- The per-base-scenario body of the report builder
(listingStrategyService.ts:158-175): anchor lookup, exit price, evaluation
window and profile evaluation.  A skipped scenario contributes `[]`. -/
def evalBaseScenario (env : FetchEnv) (listingMs : Int) (bybitKlines : List BybitKline)
    (base : BaseScenario) : List ScenarioResult :=
  let entryTime := listingMs + (base.entryHours : Int) * MS_PER_HOUR
  let exitTime := entryTime + HOLD_HOURS * MS_PER_HOUR
  match bybitKlines.find? (fun k => decide (entryTime ≤ k.start)),
      bybitKlines.find? (fun k => decide (exitTime ≤ k.start)) with
  | some _, some exitCandle =>
    if exitCandle.close = 0 then []
    else
      let windowKlines :=
        bybitKlines.filter fun k => decide (entryTime ≤ k.start) && decide (k.start < exitTime)
      if windowKlines.length = 0 then []
      else evalProfiles (buildProfilePrices windowKlines) exitCandle.close
        (env.toIsoDate entryTime) base
  | _, _ => []

/-- The per-coin body of the report builder loop
(listingStrategyService.ts:128-221).  Returns `none` exactly when the source
skips the coin (empty candles, stale listing, empty klines, zero scenario
results) or when a fetch throws and the per-coin `catch` swallows it. -/
def analyzeCoin (env : FetchEnv) (cutoffMs : Int) (coin : CoinInfo) :
    Option CoinListingAnalysis :=
  match env.fetchUpbitDailyCandles coin with
  | none => none
  | some candles =>
    if candles.length = 0 then none
    else
      match sortBy (fun a b => decide (a.candle_date_time_kst ≤ b.candle_date_time_kst)) candles with
      | [] => none
      | earliest :: _ =>
        let listingDate := env.adjustListingDate earliest.candle_date_time_kst
        if isRecentListing env listingDate cutoffMs = false then none
        else
          let listingMs := env.parseKstDateMs listingDate
          match env.fetchBybitHourlyKlines (coin.symbol ++ "USDT") (listingMs - MS_PER_HOUR)
              (listingMs + ((MAX_ENTRY_HOURS : Int) + HOLD_HOURS + 12) * MS_PER_HOUR) with
          | none => none
          | some bybitKlines =>
            if bybitKlines.length = 0 then none
            else
              let scenarioResults := BASE_SCENARIOS.flatMap (evalBaseScenario env listingMs bybitKlines)
              if 0 < scenarioResults.length then
                some { symbol := coin.symbol, market := coin.market, name := coin.name,
                       koreanName := coin.koreanName, listingDate := listingDate,
                       scenarios := scenarioResults }
              else none

/-- One step of the source summary fold (listingStrategyService.ts:197-202):
the raw return of the result is added to `totalReturn`, a strictly positive
raw return is a win, and the sample count advances. -/
def stepStat (id : String) (st : SummaryStats) (r : ScenarioResult) : SummaryStats :=
  if r.scenarioId == id then
    { totalReturn := st.totalReturn + rawReturn r.entryPrice r.exitPrice,
      wins := st.wins + (if 0 < rawReturn r.entryPrice r.exitPrice then 1 else 0),
      count := st.count + 1 }
  else st

/-- Final per-scenario accumulator value.  In the source the `summaryMap`
entry is updated in the same guarded block that pushes the result, so the
entry for `id` is exactly the fold of `stepStat id` over every emitted
result; the raw return used by the update equals `rawReturn` of the stored
entry and exit prices, which is how it is recovered here. -/
def statsFor (id : String) (results : List ScenarioResult) : SummaryStats :=
  results.foldl (stepStat id) { totalReturn := 0, wins := 0, count := 0 }

/-- The source summary construction (listingStrategyService.ts:224-237). -/
def mkScenarioSummary (scenario : ListingScenarioDefinition) (stats : SummaryStats) :
    ScenarioSummary :=
  { scenarioId := scenario.id,
    label := scenario.label,
    description := scenario.description,
    entryHours := scenario.entryHours,
    sampleSize := stats.count,
    averageReturn :=
      if stats.count = 0 then none else some (round2 (stats.totalReturn / (stats.count : ℚ))),
    successRate :=
      if stats.count = 0 then none
      else some (round1 ((stats.wins : ℚ) / (stats.count : ℚ) * 100)) }

/-- The source `buildListingStrategyReport` (listingStrategyService.ts:113).
Coins beyond `maxCoins` are dropped (`coins.slice(0, maxCoins)`); each kept
coin goes through `analyzeCoin`; a coin whose analysis is skipped
contributes neither an entry of `coins` nor any summary update, so the
summary fold over all emitted results coincides with the incremental
source fold (rational addition is exact and per-id updates commute). -/
def buildListingStrategyReport (env : FetchEnv) (coins : List CoinInfo)
    (months : ℕ := 3) (maxCoins : ℕ := DEFAULT_MAX_COINS) : ListingStrategyReport :=
  let cutoffMs := env.monthsAgoMs months
  let analyzedCoins := (coins.take maxCoins).filterMap (analyzeCoin env cutoffMs)
  let allResults := analyzedCoins.flatMap (·.scenarios)
  { generatedAt := env.generatedAt,
    months := months,
    coinsAnalyzed := analyzedCoins.length,
    scenarioDefinitions := LISTING_SCENARIOS,
    summary := LISTING_SCENARIOS.map fun scenario =>
      mkScenarioSummary scenario (statsFor scenario.id allResults),
    coins := analyzedCoins }

/-- The source `RateLimiterOptions` with all fields resolved (the
constructor fills absent fields from `DEFAULT_OPTIONS`). -/
structure RateLimiterOptions where
  minIntervalMs : ℕ
  maxRetries : ℕ
  retryBackoffMs : ℕ
deriving DecidableEq

/-- The source `DEFAULT_OPTIONS` of upbitRateLimiter (redisClient.ts:35). -/
def DEFAULT_OPTIONS : RateLimiterOptions :=
  { minIntervalMs := 350, maxRetries := 3, retryBackoffMs := 800 }

/-- A thrown JavaScript value as `isRetryable` inspects it: an object with
an optional `response.status` and an optional top-level `status`, or a
non-object (including `null`). -/
inductive JsError where
  | obj (responseStatus : Option Int) (statusField : Option Int)
  | prim
deriving DecidableEq

/-- The source `UpbitRateLimiter.isRetryable` (redisClient.ts:64):
`status = error.response?.status ?? error.status`, retryable iff 429. -/
def isRetryable : JsError → Bool
  | .obj responseStatus statusField =>
    (match responseStatus with
     | some v => some v
     | none => statusField) == some 429
  | .prim => false

/-- The retry loop of `UpbitRateLimiter.execute` (redisClient.ts:71-86).
`ops i` is the outcome of the `(i+1)`-th underlying attempt; `failures` is
the source mutable `attempt` counter (failures so far).  The first returned
component lists the backoff sleeps performed, in order; the loop terminates
because the source retries only while `attempt <= maxRetries`. -/
def executeAux (maxRetries retryBackoffMs : ℕ) (ops : ℕ → Except JsError α)
    (failures : ℕ) : List ℕ × Except JsError α :=
  match ops failures with
  | .ok a => ([], .ok a)
  | .error e =>
    if h : isRetryable e = false ∨ maxRetries < failures + 1 then ([], .error e)
    else
      let rest := executeAux maxRetries retryBackoffMs ops (failures + 1)
      (retryBackoffMs * (failures + 1) :: rest.1, rest.2)
termination_by maxRetries + 1 - failures
decreasing_by
  push_neg at h
  omega

/-- The source `execute` entry point: the loop starting at `attempt = 0`. -/
def execute (opts : RateLimiterOptions) (ops : ℕ → Except JsError α) :
    List ℕ × Except JsError α :=
  executeAux opts.maxRetries opts.retryBackoffMs ops 0

/-- Wall-clock state of the limiter: the current `Date.now()` reading and
the `lastCallTimestamp` field (initially `0`, the JS falsy default). -/
structure ThrottleState where
  now : ℕ
  lastCallTimestamp : ℕ
deriving DecidableEq

/-- The source `UpbitRateLimiter.throttle` (redisClient.ts:55-62) as a
wall-clock transition.  `extra ≥ 0` accounts for scheduler latency: `sleep`
suspends for at least the requested delta and the trailing `Date.now()` can
only read a later instant.  The resulting `lastCallTimestamp` is the
instant the guarded attempt starts. -/
def throttleStep (minIntervalMs : ℕ) (st : ThrottleState) (extra : ℕ) : ThrottleState :=
  let elapsed := st.now - st.lastCallTimestamp
  let t :=
    if st.lastCallTimestamp ≠ 0 ∧ elapsed < minIntervalMs then
      st.now + (minIntervalMs - elapsed) + extra
    else st.now + extra
  { now := t, lastCallTimestamp := t }

/-- Scheduler status union `'idle' | 'running' | 'error'`. -/
inductive SchedulerStatus where
  | idle
  | running
  | error
deriving DecidableEq

/-- Mutable fields of `ListingStrategyScheduler` that `runAnalysis`,
`getSnapshot` and `stop` touch (timers are not modelled). -/
structure StrategySchedulerState where
  report : Option ListingStrategyReport
  lastUpdated : Option ℕ
  nextRunAt : Option ℕ
  status : SchedulerStatus
  lastError : Option String
deriving DecidableEq

/-- Construction-time state of `ListingStrategyScheduler`. -/
def initialStrategyState : StrategySchedulerState :=
  { report := none, lastUpdated := none, nextRunAt := none,
    status := .idle, lastError := none }

/-- The source `ListingStrategyScheduler.runAnalysis`
(listingStrategyScheduler.ts:84-110) as a state transition.  `outcome` is
the result of awaiting `buildListingStrategyReport`: `.ok` the fresh
report, `.error` the message of the thrown exception.  `saveToDisk` and
`saveToRedis` swallow their own failures and never alter this state, so
they do not appear. -/
def strategyRunAnalysis (st : StrategySchedulerState) (coins : List CoinInfo)
    (outcome : Except String ListingStrategyReport) (now : ℕ) :
    StrategySchedulerState :=
  if st.status = .running then st
  else if coins.length = 0 then st
  else
    match outcome with
    | .ok report =>
      { st with report := some report, lastUpdated := some now,
                status := .idle, lastError := none }
    | .error msg => { st with status := .error, lastError := some msg }

/-- The source `ListingStrategySnapshot` interface. -/
structure ListingStrategySnapshot where
  status : SchedulerStatus
  lastUpdated : Option ℕ
  nextRunAt : Option ℕ
  report : Option ListingStrategyReport
  error : Option String
deriving DecidableEq

/-- The source `ListingStrategyScheduler.getSnapshot`
(listingStrategyScheduler.ts:60-68): the error field is gated on the
status being `'error'`. -/
def strategyGetSnapshot (st : StrategySchedulerState) : ListingStrategySnapshot :=
  { status := st.status, lastUpdated := st.lastUpdated, nextRunAt := st.nextRunAt,
    report := st.report,
    error := if st.status = .error then st.lastError else none }

/-- The source `ListingStrategyScheduler.stop`: clears the timer (not
modelled) and resets the status to `'idle'`; `lastError` is untouched. -/
def strategyStop (st : StrategySchedulerState) : StrategySchedulerState :=
  { st with status := .idle }

/-- The source `ListingCalendarEntry` interface. -/
structure ListingCalendarEntry where
  symbol : String
  name : String
  koreanName : String
  market : String
  listingDate : String
  isRecent : Bool
deriving DecidableEq

/-- Mutable fields of `ListingCalendarScheduler`. -/
structure CalendarSchedulerState where
  status : SchedulerStatus
  lastUpdated : Option ℕ
  nextRunAt : Option ℕ
  entries : List ListingCalendarEntry
  recentCount : ℕ
  lastError : Option String
deriving DecidableEq

/-- Construction-time state of `ListingCalendarScheduler`. -/
def initialCalendarState : CalendarSchedulerState :=
  { status := .idle, lastUpdated := none, nextRunAt := none,
    entries := [], recentCount := 0, lastError := none }

/-- The source `ListingCalendarScheduler.runAnalysis`
(listingCalendarScheduler.ts:96-119).  `outcome` is the awaited result of
`computeListingDates`; on success the entries are sorted by listing date
descending and the recent entries counted. -/
def calendarRunAnalysis (st : CalendarSchedulerState) (coins : List CoinInfo)
    (outcome : Except String (List ListingCalendarEntry)) (now : ℕ) :
    CalendarSchedulerState :=
  if st.status = .running then st
  else if coins.length = 0 then st
  else
    match outcome with
    | .ok entries =>
      let sorted := sortBy (fun a b => decide (b.listingDate ≤ a.listingDate)) entries
      { st with entries := sorted,
                recentCount := (sorted.filter (·.isRecent)).length,
                lastUpdated := some now, status := .idle, lastError := none }
    | .error msg => { st with status := .error, lastError := some msg }

/-- The source `ListingCalendarSnapshot` interface. -/
structure ListingCalendarSnapshot where
  status : SchedulerStatus
  lastUpdated : Option ℕ
  nextRunAt : Option ℕ
  entries : List ListingCalendarEntry
  recentCount : ℕ
  error : Option String
deriving DecidableEq

/-- The source `ListingCalendarScheduler.getSnapshot`
(listingCalendarScheduler.ts:74-83): the error field copies `lastError`
unconditionally, with no status gate. -/
def calendarGetSnapshot (st : CalendarSchedulerState) : ListingCalendarSnapshot :=
  { status := st.status, lastUpdated := st.lastUpdated, nextRunAt := st.nextRunAt,
    entries := st.entries, recentCount := st.recentCount,
    error := st.lastError }

/-- The source `ListingCalendarScheduler.stop`: resets status to `'idle'`
without clearing `lastError`. -/
def calendarStop (st : CalendarSchedulerState) : CalendarSchedulerState :=
  { st with status := .idle }

/-- Source constant `maxAttempts = 5` of `fetchOldestDate`. -/
def maxAttempts : ℕ := 5

/-- Oracle environment for `fetchOldestDate`: the calendar arithmetic on
cursor dates, uninterpreted. -/
structure OldestDateEnv where
  /-- Models `new Date()` at loop entry, as epoch milliseconds. -/
  nowMs : Int
  /-- Models the shared `adjustListingDate` helper. -/
  adjustListingDate : String → String
  /-- Models `new Date(utc)` shifted back one day
  (listingCalendarScheduler.ts:172-173), as epoch milliseconds. -/
  prevDayCursor : String → Int

/-- The `while` loop of `fetchOldestDate` (listingCalendarScheduler.ts:156-179).
`pages i` is the response body of the `(i+1)`-th HTTP fetch the loop
performs; `fetches` counts fetches already performed; `remaining` is
`maxAttempts - attempts`, so the guard `attempts < maxAttempts` is the
pattern match on `remaining` and the guard `!oldestDate` is checked
explicitly.  The cursor is threaded for faithfulness although the oracle is
indexed by fetch count.  Returns the final `oldestDate` and the number of
fetches performed. -/
def fetchOldestDateLoop (env : OldestDateEnv) (pages : ℕ → List UpbitDailyCandle) :
    ℕ → Option String → Int → ℕ → Option String × ℕ
  | 0, oldestDate, _, fetches => (oldestDate, fetches)
  | remaining + 1, oldestDate, currentDate, fetches =>
    if oldestDate ≠ none then (oldestDate, fetches)
    else
      let data := pages fetches
      match data.getLast? with
      | none => (oldestDate, fetches + 1)
      | some oldestCandle =>
        let od := some (env.adjustListingDate oldestCandle.candle_date_time_kst)
        if data.length = 200 then
          fetchOldestDateLoop env pages remaining od
            (env.prevDayCursor oldestCandle.candle_date_time_utc) (fetches + 1)
        else (od, fetches + 1)

/-- The source `fetchOldestDate` (listingCalendarScheduler.ts:150-182):
the loop started with `oldestDate = null`, `attempts = 0` and the cursor at
`new Date()`.  The unused `currentDate` parameter of the model keeps the
dead cursor update visible. -/
def fetchOldestDate (env : OldestDateEnv) (pages : ℕ → List UpbitDailyCandle) :
    Option String × ℕ :=
  fetchOldestDateLoop env pages maxAttempts none env.nowMs 0

/-! Concrete fixtures used by witnesses and counterexamples. -/

/-- A fixed coin used by scheduler witnesses. -/
def coin0 : CoinInfo :=
  { symbol := "AAA", name := "Aaa", koreanName := "에이", market := "KRW-AAA" }

/-- A fixed daily candle; its price fields are never read by the claims. -/
def candle0 : UpbitDailyCandle :=
  { candle_date_time_kst := "K", candle_date_time_utc := "U",
    opening_price := 1, high_price := 1, low_price := 1, trade_price := 1 }

/-- Two hourly klines: a flat bar at price `p` covering the listing hour
and a flat bar at price `q` starting exactly 24 hours later. -/
def twoKlines (p q : ℚ) : List BybitKline :=
  [ { start := 0, openPrice := p, high := p, low := p, close := p },
    { start := 86400000, openPrice := q, high := q, low := q, close := q } ]

/-- The `D0_OPEN` base scenario (head of `BASE_SCENARIOS`). -/
def baseD0 : BaseScenario :=
  ⟨"D0_OPEN", "상장 직후 숏", "상장 순간에 진입 후 24시간 보유", 0⟩

/-- The scenario result the pipeline emits for the `HIGH` profile of
`D0_OPEN` from a `twoKlines p q` series. -/
def resH (p q : ℚ) : ScenarioResult :=
  { scenarioId := "D0_OPEN_HIGH", label := "상장 직후 숏 · 최고가", date := "d0",
    entryHours := 0, entryPrice := p, exitPrice := q,
    returnPct := round2 (rawReturn p q), priceProfile := .HIGH,
    liquidated := decide (rawReturn p q ≤ -90) }

/-- The scenario result for the `MID` profile of `D0_OPEN`; the window has
a single flat bar, so the mid price is `(p + p) / 2`. -/
def resM (p q : ℚ) : ScenarioResult :=
  { scenarioId := "D0_OPEN_MID", label := "상장 직후 숏 · 중간값", date := "d0",
    entryHours := 0, entryPrice := (p + p) / 2, exitPrice := q,
    returnPct := round2 (rawReturn ((p + p) / 2) q), priceProfile := .MID,
    liquidated := decide (rawReturn ((p + p) / 2) q ≤ -90) }

/-- The scenario result for the `LOW` profile of `D0_OPEN`. -/
def resL (p q : ℚ) : ScenarioResult :=
  { scenarioId := "D0_OPEN_LOW", label := "상장 직후 숏 · 최저가", date := "d0",
    entryHours := 0, entryPrice := p, exitPrice := q,
    returnPct := round2 (rawReturn p q), priceProfile := .LOW,
    liquidated := decide (rawReturn p q ≤ -90) }

/-- The coin analysis the pipeline produces for a coin whose hourly series
is `twoKlines p q`. -/
def analysisOf (coin : CoinInfo) (p q : ℚ) : CoinListingAnalysis :=
  { symbol := coin.symbol, market := coin.market, name := coin.name,
    koreanName := coin.koreanName, listingDate := "K",
    scenarios := [resH p q, resM p q, resL p q] }

/-- Oracle environment whose hourly series is `twoKlines p q` for every
symbol; all date helpers are trivial and the cutoff always passes. -/
def twoKlineEnv (p q : ℚ) : FetchEnv :=
  { fetchUpbitDailyCandles := fun _ => some [candle0],
    fetchBybitHourlyKlines := fun _ _ _ => some (twoKlines p q),
    monthsAgoMs := fun _ => 0,
    parseKstDateMs := fun _ => 0,
    adjustListingDate := fun s => s,
    toIsoDate := fun _ => "d0",
    generatedAt := "g" }

/-- Environment for the liquidation-flag counterexample: a flat entry bar
at 25000 and an exit close of 47499, whose short return is exactly
−89.996 %, which rounds to −90.00. -/
def envC1 : FetchEnv := twoKlineEnv 25000 47499

/-- Second coin used by the aggregate counterexample. -/
def coinB0 : CoinInfo :=
  { symbol := "BBB", name := "Bbb", koreanName := "비", market := "KRW-BBB" }

/-- Environment for the aggregate counterexample: coin `AAA` returns
0.004 % raw and coin `BBB` returns 0.006 % raw, so the rounded mean is
0.01 while the mean of the (rounded or raw) returns is 0.005. -/
def envC8 : FetchEnv :=
  { fetchUpbitDailyCandles := fun _ => some [candle0],
    fetchBybitHourlyKlines := fun sym _ _ =>
      if sym = "AAAUSDT" then some (twoKlines 25000 24999)
      else some (twoKlines 50000 49997),
    monthsAgoMs := fun _ => 0,
    parseKstDateMs := fun _ => 0,
    adjustListingDate := fun s => s,
    toIsoDate := fun _ => "d0",
    generatedAt := "g" }

/-- The summary entry `buildListingStrategyReport` produces for
`D0_OPEN_HIGH` in the `envC8` run. -/
def summaryC8 : ScenarioSummary :=
  { scenarioId := "D0_OPEN_HIGH", label := "상장 직후 숏 · 최고가",
    description := "상장 순간에 진입 후 24시간 보유 (최고가 진입)",
    entryHours := 0, sampleSize := 2,
    averageReturn := some (1 / 100), successRate := some 100 }

/-- A report literal used as previously-stored state in scheduler
witnesses. -/
def sampleReport : ListingStrategyReport :=
  { generatedAt := "2026-01-01T00:00:00.000Z", months := 3, coinsAnalyzed := 0,
    scenarioDefinitions := [], summary := [], coins := [] }

/-- A scheduler state holding a previously computed report, as left by an
earlier successful run followed by a failed one. -/
def stateWithReport : StrategySchedulerState :=
  { report := some sampleReport, lastUpdated := some 5, nextRunAt := none,
    status := .error, lastError := some "old" }

/-- Options used by the retry witnesses: two retries, 5 ms backoff base. -/
def opts1 : RateLimiterOptions :=
  { minIntervalMs := 350, maxRetries := 2, retryBackoffMs := 5 }

/-- A rate-limit rejection (HTTP 429 on `error.response.status`). -/
def err429 : JsError := .obj (some 429) none

/-- A non-retryable upstream failure (HTTP 500). -/
def errOther : JsError := .obj (some 500) none

/-- Scripted operation: a 429 on the first attempt, then a 500. -/
def ops1 : ℕ → Except JsError Unit :=
  fun i => if i = 0 then .error err429 else .error errOther

/-- Scripted operation that is rate-limited on every attempt. -/
def ops429 : ℕ → Except JsError Unit := fun _ => .error err429

/-- Discovery oracle environment with trivial calendar arithmetic. -/
def oldestEnv0 : OldestDateEnv :=
  { nowMs := 0, adjustListingDate := fun s => s, prevDayCursor := fun _ => 0 }

/-- Paged daily-candle oracle: every fetch returns a full page of 200
candles, so a faithful backward walk would have to fetch again. -/
def fullPages : ℕ → List UpbitDailyCandle := fun _ => List.replicate 200 candle0

/-- Selector used to state aggregate claims: the results carrying a given
scenario id across all coin analyses of a report. -/
def resultsFor (report : ListingStrategyReport) (id : String) : List ScenarioResult :=
  (report.coins.flatMap (·.scenarios)).filter (fun r => r.scenarioId == id)

/-! Claim theorems. -/

/-- C4: if the compute pipeline throws during a strategy scheduler run,
`runAnalysis` sets the status to `error` and records the message while the
previously stored report and `lastUpdated` are unchanged, and a snapshot
taken in this state still carries the old report next to the error
string. -/
theorem C4_error_run_preserves_state (st : StrategySchedulerState)
    (coins : List CoinInfo) (msg : String) (now : ℕ)
    (hrun : st.status ≠ .running) (hne : coins ≠ []) :
    (strategyRunAnalysis st coins (.error msg) now).status = .error ∧
    (strategyRunAnalysis st coins (.error msg) now).lastError = some msg ∧
    (strategyRunAnalysis st coins (.error msg) now).report = st.report ∧
    (strategyRunAnalysis st coins (.error msg) now).lastUpdated = st.lastUpdated ∧
    (strategyGetSnapshot (strategyRunAnalysis st coins (.error msg) now)).report = st.report ∧
    (strategyGetSnapshot (strategyRunAnalysis st coins (.error msg) now)).error = some msg := by
  have hlen : ¬ coins.length = 0 := by
    simpa [List.length_eq_zero] using hne
  simp [strategyRunAnalysis, strategyGetSnapshot, hrun, hlen]

/-- C4 witness: a failed run over a state holding an earlier report keeps
that report servable and exposes the error message. -/
theorem C4_error_run_preserves_state_witness :
    stateWithReport.status ≠ .running ∧ [coin0] ≠ ([] : List CoinInfo) ∧
    ((strategyRunAnalysis stateWithReport [coin0] (.error "boom") 9).status = .error ∧
     (strategyRunAnalysis stateWithReport [coin0] (.error "boom") 9).lastError = some "boom" ∧
     (strategyRunAnalysis stateWithReport [coin0] (.error "boom") 9).report = stateWithReport.report ∧
     (strategyRunAnalysis stateWithReport [coin0] (.error "boom") 9).lastUpdated = stateWithReport.lastUpdated ∧
     (strategyGetSnapshot (strategyRunAnalysis stateWithReport [coin0] (.error "boom") 9)).report = stateWithReport.report ∧
     (strategyGetSnapshot (strategyRunAnalysis stateWithReport [coin0] (.error "boom") 9)).error = some "boom") :=
  ⟨by decide, by decide,
    C4_error_run_preserves_state stateWithReport [coin0] "boom" 9 (by decide) (by decide)⟩

/-- C5 counterexample: after a failed run, a run that observes an empty
asset catalog leaves the status at `error`; it does not return to `idle`,
refuting the claim as stated. -/
theorem C5_counterexample :
    (strategyRunAnalysis
      (strategyRunAnalysis initialStrategyState [coin0] (.error "boom") 0)
      [] (.error "later") 1).status ≠ SchedulerStatus.idle := by
  decide

/-- C5 (amended): a scheduler run that observes an empty asset catalog is
a complete no-op — report, `lastUpdated`, `lastError` and also the status
keep their previous values (so the status stays `idle` only if it already
was `idle`). -/
theorem C5_empty_catalog_noop (st : StrategySchedulerState)
    (outcome : Except String ListingStrategyReport) (now : ℕ) :
    strategyRunAnalysis st [] outcome now = st := by
  unfold strategyRunAnalysis
  split
  · rfl
  · simp

/-- C7 counterexample: `stop()` after a failed calendar run yields a
snapshot whose status is `idle` while its error field is still populated,
refuting the claim for `ListingCalendarScheduler.getSnapshot`. -/
theorem C7_counterexample :
    (calendarGetSnapshot (calendarStop
      (calendarRunAnalysis initialCalendarState [coin0] (.error "boom") 0))).status =
        SchedulerStatus.idle ∧
    (calendarGetSnapshot (calendarStop
      (calendarRunAnalysis initialCalendarState [coin0] (.error "boom") 0))).error =
        some "boom" := by
  decide

/-- C7 (amended): the strategy scheduler populates the snapshot error
field only when the status is `error`, but the calendar scheduler copies
`lastError` into every snapshot unconditionally, so its error field can be
populated while the status is not `error`. -/
theorem C7_snapshot_error_gating :
    (∀ st : StrategySchedulerState, st.status ≠ .error →
      (strategyGetSnapshot st).error = none) ∧
    (∀ st : CalendarSchedulerState, (calendarGetSnapshot st).error = st.lastError) := by
  constructor
  · intro st h
    simp [strategyGetSnapshot, h]
  · intro st
    rfl

/-- C7 witness: the gating direction evaluated on the initial states. -/
theorem C7_snapshot_error_gating_witness :
    initialStrategyState.status ≠ .error ∧
    (strategyGetSnapshot initialStrategyState).error = none ∧
    (calendarGetSnapshot initialCalendarState).error = initialCalendarState.lastError :=
  ⟨by decide, C7_snapshot_error_gating.1 initialStrategyState (by decide),
    C7_snapshot_error_gating.2 initialCalendarState⟩

/-- C6: consecutive throttled attempts start at least `minIntervalMs`
apart.  If the previous attempt started at wall-clock `t1 > 0` (recorded
in `lastCallTimestamp`; `Date.now()` is positive in practice) and the next
`throttle` runs at `t1 + d`, then the next attempt starts no earlier than
`t1 + minIntervalMs`; the default interval is 350 ms. -/
theorem C6_throttle_min_interval (minIntervalMs t1 d extra : ℕ) (h : 0 < t1) :
    DEFAULT_OPTIONS.minIntervalMs = 350 ∧
    t1 + minIntervalMs ≤
      (throttleStep minIntervalMs ⟨t1 + d, t1⟩ extra).lastCallTimestamp := by
  refine ⟨rfl, ?_⟩
  unfold throttleStep
  dsimp only
  split <;> omega

/-- C6 witness: with `minIntervalMs = 500` the separation is at least
500 ms (here the second call arrives 100 ms after the first attempt). -/
theorem C6_throttle_min_interval_witness :
    0 < 1000 ∧
    (DEFAULT_OPTIONS.minIntervalMs = 350 ∧
      1000 + 500 ≤ (throttleStep 500 ⟨1000 + 100, 1000⟩ 0).lastCallTimestamp) :=
  ⟨by decide, C6_throttle_min_interval 500 1000 100 0 (by decide)⟩

/-- C2: the listing-date discovery loop performs exactly one fetch
whenever the first page is nonempty — even when that page is full (200
bars), the guard `attempts < maxAttempts && !oldestDate` is already false
after `oldestDate` is assigned, so the cursor move, the attempt counter
and the 5-attempt cap are dead code and no second fetch ever happens.
This contradicts the specified repeat-until-partial-page behaviour. -/
theorem C2_discovery_stops_after_first_page (env : OldestDateEnv)
    (pages : ℕ → List UpbitDailyCandle) (c : UpbitDailyCandle)
    (hlast : (pages 0).getLast? = some c) (hfull : (pages 0).length = 200) :
    fetchOldestDate env pages =
      (some (env.adjustListingDate c.candle_date_time_kst), 1) := by
  unfold fetchOldestDate maxAttempts
  rw [fetchOldestDateLoop]
  simp only [ne_eq, not_true_eq_false, reduceIte, hlast, hfull]
  rw [fetchOldestDateLoop]
  simp

/-- The last entry of a nonempty replicated list is the replicated
element. -/
theorem getLast?_replicate_succ (n : ℕ) (a : α) :
    (List.replicate (n + 1) a).getLast? = some a := by
  induction n with
  | zero => rfl
  | succ n ih =>
    rw [List.replicate_succ, List.replicate_succ]
    rw [List.getLast?_cons_cons]
    rw [← List.replicate_succ]
    exact ih

/-- C2 witness: on an oracle that always returns full pages of 200 bars
the loop still returns after a single fetch, with the adjusted date of the
first page's oldest bar. -/
theorem C2_discovery_stops_after_first_page_witness :
    (fullPages 0).getLast? = some candle0 ∧ (fullPages 0).length = 200 ∧
    fetchOldestDate oldestEnv0 fullPages =
      (some (oldestEnv0.adjustListingDate candle0.candle_date_time_kst), 1) :=
  ⟨getLast?_replicate_succ 199 candle0,
    by rw [show fullPages 0 = List.replicate 200 candle0 from rfl, List.length_replicate],
    C2_discovery_stops_after_first_page oldestEnv0 fullPages candle0
      (getLast?_replicate_succ 199 candle0)
      (by rw [show fullPages 0 = List.replicate 200 candle0 from rfl, List.length_replicate])⟩

/-- Propagation lemma for the retry loop: if the attempts at positions
`f, …, f+k-1` fail with retryable errors, the retry budget is not yet
exhausted, and attempt `f+k` fails with a non-retryable error, then the
loop stops at once with that error after the `k` linear backoff sleeps. -/
theorem executeAux_propagates (m b : ℕ) (ops : ℕ → Except JsError α) :
    ∀ (k f : ℕ) (e : JsError),
      (∀ j, j < k → ∃ ej, ops (f + j) = .error ej ∧ isRetryable ej = true) →
      f + k ≤ m → ops (f + k) = .error e → isRetryable e = false →
      executeAux m b ops f = ((List.range k).map (fun j => b * (f + j + 1)), .error e) := by
  intro k
  induction k with
  | zero =>
    intro f e _ hle he hre
    rw [executeAux]
    simp only [Nat.add_zero] at he
    rw [he]
    simp [hre]
  | succ k ih =>
    intro f e hret hle he hre
    obtain ⟨e0, he0, hre0⟩ := hret 0 (Nat.succ_pos k)
    have hrest := ih (f + 1) e
      (fun j hj => by
        have := hret (j + 1) (by omega)
        simpa [Nat.add_assoc, Nat.add_comm 1 j] using this)
      (by omega)
      (by simpa [Nat.add_assoc, Nat.add_comm 1 k] using he)
      hre
    have hlist : (List.range (k + 1)).map (fun j => b * (f + j + 1)) =
        b * (f + 1) :: (List.range k).map (fun j => b * (f + 1 + j + 1)) := by
      rw [List.range_succ_eq_map]
      simp only [List.map_cons, List.map_map]
      refine congrArg₂ _ (by ring_nf) ?_
      apply List.map_congr_left
      intro j _
      simp only [Function.comp_apply, Nat.succ_eq_add_one]
      ring
    rw [executeAux]
    simp only [Nat.add_zero] at he0
    rw [he0]
    dsimp only
    rw [dif_neg (by simp [hre0]; omega)]
    simp only [hrest, hlist]

/-- Exhaustion lemma for the retry loop: if every attempt from `f` up to
the final budgeted one at position `m` fails with a retryable error, the
loop re-raises the error of the final attempt after the linear backoff
sleeps. -/
theorem executeAux_exhausts (m b : ℕ) (ops : ℕ → Except JsError α) :
    ∀ (k f : ℕ) (e : JsError),
      (∀ j, j < k → ∃ ej, ops (f + j) = .error ej ∧ isRetryable ej = true) →
      f + k = m → ops (f + k) = .error e → isRetryable e = true →
      executeAux m b ops f = ((List.range k).map (fun j => b * (f + j + 1)), .error e) := by
  intro k
  induction k with
  | zero =>
    intro f e _ heq he hre
    rw [executeAux]
    simp only [Nat.add_zero] at he
    rw [he]
    dsimp only
    rw [dif_pos (by omega)]
    simp
  | succ k ih =>
    intro f e hret heq he hre
    obtain ⟨e0, he0, hre0⟩ := hret 0 (Nat.succ_pos k)
    have hrest := ih (f + 1) e
      (fun j hj => by
        have := hret (j + 1) (by omega)
        simpa [Nat.add_assoc, Nat.add_comm 1 j] using this)
      (by omega)
      (by simpa [Nat.add_assoc, Nat.add_comm 1 k] using he)
      hre
    have hlist : (List.range (k + 1)).map (fun j => b * (f + j + 1)) =
        b * (f + 1) :: (List.range k).map (fun j => b * (f + 1 + j + 1)) := by
      rw [List.range_succ_eq_map]
      simp only [List.map_cons, List.map_map]
      refine congrArg₂ _ (by ring_nf) ?_
      apply List.map_congr_left
      intro j _
      simp only [Function.comp_apply, Nat.succ_eq_add_one]
      ring
    rw [executeAux]
    simp only [Nat.add_zero] at he0
    rw [he0]
    dsimp only
    rw [dif_neg (by simp [hre0]; omega)]
    simp only [hrest, hlist]

/-- C3: `execute` retries only on failures classified as HTTP 429: after
any run of retryable rejections, a non-retryable failure within the retry
budget propagates immediately as-is; the sleeps between attempts are the
linear backoffs `retryBackoffMs * attemptNumber`; and when the initial
attempt and all `maxRetries` retries are rejected as rate-limited, the
error of the final attempt is re-raised to the caller. -/
theorem C3_execute_retry_policy (opts : RateLimiterOptions)
    (ops : ℕ → Except JsError α) :
    (∀ k e, (∀ j, j < k → ∃ ej, ops j = .error ej ∧ isRetryable ej = true) →
      k ≤ opts.maxRetries → ops k = .error e → isRetryable e = false →
      execute opts ops =
        ((List.range k).map (fun j => opts.retryBackoffMs * (j + 1)), .error e)) ∧
    ((∀ j, j < opts.maxRetries → ∃ ej, ops j = .error ej ∧ isRetryable ej = true) →
      ∀ e, ops opts.maxRetries = .error e → isRetryable e = true →
      execute opts ops =
        ((List.range opts.maxRetries).map (fun j => opts.retryBackoffMs * (j + 1)),
          .error e)) := by
  constructor
  · intro k e hret hk he hre
    have h := executeAux_propagates opts.maxRetries opts.retryBackoffMs ops k 0 e
      (by simpa using hret) (by omega) (by simpa using he) hre
    simpa [execute] using h
  · intro hret e he hre
    have h := executeAux_exhausts opts.maxRetries opts.retryBackoffMs ops
      opts.maxRetries 0 e (by simpa using hret) (by omega) (by simpa using he) hre
    simpa [execute] using h

/-- C3 witness: with `maxRetries = 2` and backoff base 5, a 429 followed
by a 500 gives one 5 ms backoff and then the 500 propagating; three
consecutive 429s exhaust the budget and re-raise the final 429 after
backoffs 5 ms and 10 ms. -/
theorem C3_execute_retry_policy_witness :
    execute opts1 ops1 = ([5], .error errOther) ∧
    execute opts1 ops429 = ([5, 10], .error err429) := by
  constructor
  · have h := (C3_execute_retry_policy opts1 ops1).1 1 errOther
      (fun j hj => by
        cases j with
        | zero => exact ⟨err429, rfl, rfl⟩
        | succ n => omega)
      (by decide) rfl rfl
    simpa using h
  · have h := (C3_execute_retry_policy opts1 ops429).2
      (fun j _ => ⟨err429, rfl, rfl⟩) err429 rfl rfl
    simpa using h

/-- The initial accumulator bounds the high-price max-fold from below. -/
theorem le_foldl_max_high (l : List BybitKline) (a : ℚ) :
    a ≤ l.foldl (fun m kk => max m kk.high) a := by
  induction l generalizing a with
  | nil => simp
  | cons x l ih =>
    simp only [List.foldl_cons]
    exact le_trans (le_max_left a x.high) (ih (max a x.high))

/-- The initial accumulator bounds the low-price min-fold from above. -/
theorem foldl_min_low_le (l : List BybitKline) (a : ℚ) :
    l.foldl (fun m kk => min m kk.low) a ≤ a := by
  induction l generalizing a with
  | nil => simp
  | cons x l ih =>
    simp only [List.foldl_cons]
    exact le_trans (ih (min a x.low)) (min_le_left a x.low)

/-- C9 counterexample: on a window holding a single malformed bar with
`high < low` (nothing in the code validates bars), the computed profile
prices violate `HIGH ≥ MID`, refuting the unconditional ordering claim. -/
theorem C9_counterexample :
    (buildProfilePrices [⟨0, 0, 1, 2, 0⟩]).HIGH = some 1 ∧
    (buildProfilePrices [⟨0, 0, 1, 2, 0⟩]).MID = some (3 / 2) ∧
    (buildProfilePrices [⟨0, 0, 1, 2, 0⟩]).LOW = some 2 ∧
    ¬ ((3 : ℚ) / 2 ≤ 1) := by
  refine ⟨rfl, ?_, rfl, by norm_num⟩
  show some (((1 : ℚ) + 2) / 2) = some (3 / 2)
  norm_num

/-- C9 (amended): over any window whose bars satisfy the OHLC
well-formedness condition `low ≤ high`, the profile prices obey
`HIGH ≥ MID ≥ LOW`; the identity `MID = (HIGH + LOW) / 2` holds exactly
whenever the three prices are defined, with no condition on the bars. -/
theorem C9_profile_price_ordering (klines : List BybitKline)
    (hwf : ∀ k ∈ klines, k.low ≤ k.high) (h m l : ℚ)
    (hh : (buildProfilePrices klines).HIGH = some h)
    (hm : (buildProfilePrices klines).MID = some m)
    (hl : (buildProfilePrices klines).LOW = some l) :
    m ≤ h ∧ l ≤ m ∧ m = (h + l) / 2 := by
  cases klines with
  | nil => exact absurd hh (by simp [buildProfilePrices])
  | cons k rest =>
    simp only [buildProfilePrices, Option.some.injEq] at hh hm hl
    subst hh hm hl
    have hhi : k.high ≤ rest.foldl (fun m kk => max m kk.high) k.high :=
      le_foldl_max_high rest k.high
    have hlo : rest.foldl (fun m kk => min m kk.low) k.low ≤ k.low :=
      foldl_min_low_le rest k.low
    have hk : k.low ≤ k.high := hwf k (List.mem_cons_self k rest)
    constructor
    · linarith
    · constructor
      · linarith
      · rfl

/-- C9 witness: a single well-formed flat-range bar with high 2 and low 1
gives `HIGH = 2 ≥ MID = 3/2 ≥ LOW = 1` and the exact mid identity. -/
theorem C9_profile_price_ordering_witness :
    (∀ k ∈ [(⟨0, 0, 2, 1, 0⟩ : BybitKline)], k.low ≤ k.high) ∧
    (buildProfilePrices [(⟨0, 0, 2, 1, 0⟩ : BybitKline)]).HIGH = some 2 ∧
    (buildProfilePrices [(⟨0, 0, 2, 1, 0⟩ : BybitKline)]).MID = some (3 / 2) ∧
    (buildProfilePrices [(⟨0, 0, 2, 1, 0⟩ : BybitKline)]).LOW = some 1 ∧
    ((3 : ℚ) / 2 ≤ 2 ∧ 1 ≤ (3 : ℚ) / 2 ∧ (3 : ℚ) / 2 = (2 + 1) / 2) := by
  have hwf : ∀ k ∈ [(⟨0, 0, 2, 1, 0⟩ : BybitKline)], k.low ≤ k.high := by
    intro k hk
    simp only [List.mem_singleton] at hk
    subst hk
    show (1 : ℚ) ≤ 2
    norm_num
  have hm : (buildProfilePrices [(⟨0, 0, 2, 1, 0⟩ : BybitKline)]).MID = some (3 / 2) := by
    show some (((2 : ℚ) + 1) / 2) = some (3 / 2)
    norm_num
  exact ⟨hwf, rfl, hm, rfl,
    C9_profile_price_ordering [⟨0, 0, 2, 1, 0⟩] hwf 2 (3 / 2) 1 rfl hm rfl⟩

/-- Every result emitted by the profile loop stores the rounded raw return
computed from its own entry and exit prices, and its liquidation flag
compares the raw (unrounded) return against −90. -/
theorem evalProfiles_resultOk (pp : ProfilePrices) (xp : ℚ) (ds : String)
    (base : BaseScenario) (r : ScenarioResult)
    (hr : r ∈ evalProfiles pp xp ds base) :
    r.returnPct = round2 (rawReturn r.entryPrice r.exitPrice) ∧
    r.liquidated = decide (rawReturn r.entryPrice r.exitPrice ≤ -90) := by
  simp only [evalProfiles, List.mem_filterMap] at hr
  obtain ⟨profile, -, heq⟩ := hr
  split at heq
  · exact absurd heq (by simp)
  · split at heq
    · exact absurd heq (by simp)
    · split at heq
      · exact absurd heq (by simp)
      · rw [Option.some.injEq] at heq
        subst heq
        exact ⟨rfl, rfl⟩

/-- Lifting of `evalProfiles_resultOk` through the per-base-scenario
evaluation. -/
theorem evalBaseScenario_resultOk (env : FetchEnv) (listingMs : Int)
    (bybitKlines : List BybitKline) (base : BaseScenario) (r : ScenarioResult)
    (hr : r ∈ evalBaseScenario env listingMs bybitKlines base) :
    r.returnPct = round2 (rawReturn r.entryPrice r.exitPrice) ∧
    r.liquidated = decide (rawReturn r.entryPrice r.exitPrice ≤ -90) := by
  simp only [evalBaseScenario] at hr
  split at hr
  · split at hr
    · exact absurd hr (by simp)
    · split at hr
      · exact absurd hr (by simp)
      · exact evalProfiles_resultOk _ _ _ _ r hr
  · exact absurd hr (by simp)

/-- A successful coin analysis has a nonempty scenario list, and each of
its results satisfies the rounding/liquidation relationship. -/
theorem analyzeCoin_some_spec (env : FetchEnv) (cutoffMs : Int) (coin : CoinInfo)
    (a : CoinListingAnalysis) (h : analyzeCoin env cutoffMs coin = some a) :
    a.scenarios ≠ [] ∧
    ∀ r ∈ a.scenarios,
      r.returnPct = round2 (rawReturn r.entryPrice r.exitPrice) ∧
      r.liquidated = decide (rawReturn r.entryPrice r.exitPrice ≤ -90) := by
  unfold analyzeCoin at h
  split at h
  · exact absurd h (by simp)
  · split at h
    · exact absurd h (by simp)
    · split at h
      · exact absurd h (by simp)
      · dsimp only at h
        split at h
        · exact absurd h (by simp)
        · split at h
          · exact absurd h (by simp)
          · split at h
            · exact absurd h (by simp)
            · split at h
              · rw [Option.some.injEq] at h
                subst h
                constructor
                · exact List.length_pos.mp (by assumption)
                · intro r hr
                  simp only [List.mem_flatMap] at hr
                  obtain ⟨base, -, hrb⟩ := hr
                  exact evalBaseScenario_resultOk _ _ _ _ r hrb
              · exact absurd h (by simp)

/-- C10: in every report, `coinsAnalyzed` equals the length of the `coins`
array, every listed coin analysis carries at least one scenario result,
the array length never exceeds the `maxCoins` argument, and the default
bound is 150. -/
theorem C10_report_shape (env : FetchEnv) (coins : List CoinInfo)
    (months maxCoins : ℕ) :
    (buildListingStrategyReport env coins months maxCoins).coinsAnalyzed =
      (buildListingStrategyReport env coins months maxCoins).coins.length ∧
    (buildListingStrategyReport env coins months maxCoins).coins.all
      (fun a => !a.scenarios.isEmpty) = true ∧
    (buildListingStrategyReport env coins months maxCoins).coins.length ≤ maxCoins ∧
    DEFAULT_MAX_COINS = 150 := by
  refine ⟨rfl, ?_, ?_, rfl⟩
  · rw [List.all_eq_true]
    intro a ha
    simp only [buildListingStrategyReport, List.mem_filterMap] at ha
    obtain ⟨c, -, hc⟩ := ha
    have := (analyzeCoin_some_spec _ _ _ _ hc).1
    simpa using this
  · calc (buildListingStrategyReport env coins months maxCoins).coins.length
        ≤ (coins.take maxCoins).length := List.length_filterMap_le _ _
      _ ≤ maxCoins := List.length_take_le _ _

/-- C1 (amended): for every `ScenarioResult` emitted by
`buildListingStrategyReport`, the stored `returnPct` is the raw return
`(entryPrice − exitPrice) / entryPrice · 100` rounded to 2 decimals, and
`liquidated` is the comparison of the RAW (pre-rounding) return against
−90 — so `liquidated` can be `false` while the stored rounded `returnPct`
equals −90. -/
theorem C1_returnPct_rounding_and_liquidation (env : FetchEnv)
    (coins : List CoinInfo) (months maxCoins : ℕ) :
    ∀ a ∈ (buildListingStrategyReport env coins months maxCoins).coins,
      ∀ r ∈ a.scenarios,
        r.returnPct = round2 (rawReturn r.entryPrice r.exitPrice) ∧
        r.liquidated = decide (rawReturn r.entryPrice r.exitPrice ≤ -90) := by
  intro a ha r hr
  simp only [buildListingStrategyReport, List.mem_filterMap] at ha
  obtain ⟨c, -, hc⟩ := ha
  exact (analyzeCoin_some_spec _ _ _ _ hc).2 r hr

/-- Evaluation of the profile loop for the `D0_OPEN` base scenario over a
window whose three profile prices come from one flat bar at `p`. -/
theorem evalProfiles_flat (p q : ℚ) (hp : ¬ p = 0) :
    evalProfiles ⟨some p, some ((p + p) / 2), some p⟩ q "d0"
      ⟨"D0_OPEN", "상장 직후 숏", "상장 순간에 진입 후 24시간 보유", 0⟩ =
      [resH p q, resM p q, resL p q] := by
  simp [evalProfiles, PRICE_PROFILES, ProfilePrices.get, profileKey, hp,
    LISTING_SCENARIOS, BASE_SCENARIOS, resH, resM, resL]

/-- Evaluation of the base-scenario fold over the flat two-kline series at
listing time 0: only `D0_OPEN` has both anchors inside the series, and its
window is the single flat bar at `p`. -/
theorem scenarioResults_twoKline (env : FetchEnv) (p q : ℚ)
    (hp : ¬ p = 0) (hq : ¬ q = 0) (hiso : ∀ t, env.toIsoDate t = "d0") :
    BASE_SCENARIOS.flatMap (evalBaseScenario env 0 (twoKlines p q)) =
      [resH p q, resM p q, resL p q] := by
  rw [show BASE_SCENARIOS.flatMap (evalBaseScenario env 0 (twoKlines p q)) =
      evalBaseScenario env 0 (twoKlines p q)
        ⟨"D0_OPEN", "상장 직후 숏", "상장 순간에 진입 후 24시간 보유", 0⟩ ++
      (evalBaseScenario env 0 (twoKlines p q)
        ⟨"D0_12H", "상장 +12시간 숏", "상장 12시간 뒤 진입 후 24시간 보유", 12⟩ ++
      (evalBaseScenario env 0 (twoKlines p q)
        ⟨"D1_OPEN", "상장 +1일 숏", "상장 다음날 진입 후 24시간 보유", 24⟩ ++
      (evalBaseScenario env 0 (twoKlines p q)
        ⟨"D3_OPEN", "상장 +3일 숏", "상장 3일 뒤 진입 후 24시간 보유", 72⟩ ++
      (evalBaseScenario env 0 (twoKlines p q)
        ⟨"D5_OPEN", "상장 +5일 숏", "상장 5일 뒤 진입 후 24시간 보유", 120⟩ ++ [])))) from
    by simp [BASE_SCENARIOS]]
  have h12 : evalBaseScenario env 0 (twoKlines p q)
      ⟨"D0_12H", "상장 +12시간 숏", "상장 12시간 뒤 진입 후 24시간 보유", 12⟩ = [] := by
    norm_num [evalBaseScenario, twoKlines, MS_PER_HOUR, HOLD_HOURS, List.find?]
  have h24 : evalBaseScenario env 0 (twoKlines p q)
      ⟨"D1_OPEN", "상장 +1일 숏", "상장 다음날 진입 후 24시간 보유", 24⟩ = [] := by
    norm_num [evalBaseScenario, twoKlines, MS_PER_HOUR, HOLD_HOURS, List.find?]
  have h72 : evalBaseScenario env 0 (twoKlines p q)
      ⟨"D3_OPEN", "상장 +3일 숏", "상장 3일 뒤 진입 후 24시간 보유", 72⟩ = [] := by
    norm_num [evalBaseScenario, twoKlines, MS_PER_HOUR, HOLD_HOURS, List.find?]
  have h120 : evalBaseScenario env 0 (twoKlines p q)
      ⟨"D5_OPEN", "상장 +5일 숏", "상장 5일 뒤 진입 후 24시간 보유", 120⟩ = [] := by
    norm_num [evalBaseScenario, twoKlines, MS_PER_HOUR, HOLD_HOURS, List.find?]
  have h0 : evalBaseScenario env 0 (twoKlines p q)
      ⟨"D0_OPEN", "상장 직후 숏", "상장 순간에 진입 후 24시간 보유", 0⟩ =
      [resH p q, resM p q, resL p q] := by
    rw [show evalBaseScenario env 0 (twoKlines p q)
        ⟨"D0_OPEN", "상장 직후 숏", "상장 순간에 진입 후 24시간 보유", 0⟩ =
        evalProfiles (buildProfilePrices [⟨0, p, p, p, p⟩]) q (env.toIsoDate 0)
          ⟨"D0_OPEN", "상장 직후 숏", "상장 순간에 진입 후 24시간 보유", 0⟩ from
      by norm_num [evalBaseScenario, twoKlines, MS_PER_HOUR, HOLD_HOURS, List.find?, hq]]
    rw [hiso 0]
    rw [show buildProfilePrices [⟨0, p, p, p, p⟩] =
        ⟨some p, some ((p + p) / 2), some p⟩ from by simp [buildProfilePrices]]
    exact evalProfiles_flat p q hp
  rw [h0, h12, h24, h72, h120]
  simp

/-- Evaluation of one coin analysis over an oracle with trivial date
helpers, a single daily candle, and the flat two-kline hourly series. -/
theorem analyzeCoin_flatKlines (env : FetchEnv) (coin : CoinInfo) (p q : ℚ)
    (hp : ¬ p = 0) (hq : ¬ q = 0)
    (hDaily : ∀ c, env.fetchUpbitDailyCandles c = some [candle0])
    (hAdj : ∀ s, env.adjustListingDate s = s)
    (hParse : ∀ s, env.parseKstDateMs s = 0)
    (hIso : ∀ t, env.toIsoDate t = "d0")
    (hBybit : ∀ s e, env.fetchBybitHourlyKlines (coin.symbol ++ "USDT") s e =
      some (twoKlines p q)) :
    analyzeCoin env 0 coin = some (analysisOf coin p q) := by
  simp [analyzeCoin, hDaily, hAdj, hParse, hIso, hBybit, isRecentListing,
    sortBy, insertSorted, candle0, analysisOf,
    (show (twoKlines p q).length = 2 from rfl),
    scenarioResults_twoKline env p q hp hq hIso]

/-- The coins array of the concrete `envC1` run: one analyzed coin with
the three `D0_OPEN` results. -/
theorem reportC1_coins :
    (buildListingStrategyReport envC1 [coin0] 3 150).coins =
      [analysisOf coin0 25000 47499] := by
  have h := analyzeCoin_flatKlines envC1 coin0 25000 47499
    (by norm_num) (by norm_num)
    (fun c => rfl) (fun s => rfl) (fun s => rfl) (fun t => rfl) (fun s e => rfl)
  simp only [buildListingStrategyReport]
  rw [show envC1.monthsAgoMs 3 = 0 from rfl]
  simp [h]

/-- C1 counterexample: the `envC1` run emits a result whose stored
(rounded) `returnPct` is −90 ≤ −90 while `liquidated` is `false`, because
the source compares the raw return −89.996 against −90 before rounding;
this refutes `liquidated == (returnPct ≤ -90)` for the stored value. -/
theorem C1_counterexample :
    ((buildListingStrategyReport envC1 [coin0] 3 150).coins.flatMap
      (·.scenarios)).head? = some (resH 25000 47499) ∧
    (resH 25000 47499).returnPct ≤ -90 ∧
    (resH 25000 47499).liquidated = false := by
  refine ⟨?_, ?_, ?_⟩
  · rw [reportC1_coins]
    rfl
  · show round2 (rawReturn 25000 47499) ≤ -90
    have : round2 (rawReturn 25000 47499) = -90 := by
      norm_num [round2, rawReturn, round_eq, Int.floor_eq_iff]
    rw [this]
  · show decide (rawReturn 25000 47499 ≤ -90) = false
    rw [decide_eq_false_iff_not]
    norm_num [rawReturn]

/-- C1 witness: the amended rounding/liquidation relationship applied to
the concrete result emitted by the `envC1` run. -/
theorem C1_returnPct_rounding_and_liquidation_witness :
    analysisOf coin0 25000 47499 ∈ (buildListingStrategyReport envC1 [coin0] 3 150).coins ∧
    resH 25000 47499 ∈ (analysisOf coin0 25000 47499).scenarios ∧
    ((resH 25000 47499).returnPct =
        round2 (rawReturn (resH 25000 47499).entryPrice (resH 25000 47499).exitPrice) ∧
      (resH 25000 47499).liquidated =
        decide (rawReturn (resH 25000 47499).entryPrice (resH 25000 47499).exitPrice ≤ -90)) := by
  have hmem : analysisOf coin0 25000 47499 ∈
      (buildListingStrategyReport envC1 [coin0] 3 150).coins := by
    rw [reportC1_coins]
    exact List.mem_singleton_self _
  have hr : resH 25000 47499 ∈ (analysisOf coin0 25000 47499).scenarios := by
    simp [analysisOf]
  exact ⟨hmem, hr,
    C1_returnPct_rounding_and_liquidation envC1 [coin0] 3 150 _ hmem _ hr⟩

/-- Closed form of the summary fold: folding `stepStat id` over a result
list adds the raw-return sum, the positive-raw-return count and the length
of the results carrying `id`. -/
theorem foldl_stepStat (id : String) (l : List ScenarioResult) (st : SummaryStats) :
    l.foldl (stepStat id) st =
      { totalReturn := st.totalReturn +
          ((l.filter (fun r => r.scenarioId == id)).map
            (fun r => rawReturn r.entryPrice r.exitPrice)).sum,
        wins := st.wins + (l.filter (fun r => r.scenarioId == id)).countP
          (fun r => decide (0 < rawReturn r.entryPrice r.exitPrice)),
        count := st.count + (l.filter (fun r => r.scenarioId == id)).length } := by
  induction l generalizing st with
  | nil => simp
  | cons r l ih =>
    rw [List.foldl_cons, ih, List.filter_cons]
    unfold stepStat
    by_cases hc : (r.scenarioId == id) = true
    · rw [if_pos hc, if_pos hc]
      simp only [List.map_cons, List.sum_cons, List.countP_cons, List.length_cons,
        SummaryStats.mk.injEq, decide_eq_true_eq]
      refine ⟨by ring, ?_, by omega⟩
      by_cases h2 : 0 < rawReturn r.entryPrice r.exitPrice
      · simp only [h2, if_true]
        omega
      · simp only [h2, if_false]
        omega
    · rw [if_neg hc, if_neg hc]

/-- The accumulator `statsFor id` in closed form. -/
theorem statsFor_spec (id : String) (l : List ScenarioResult) :
    statsFor id l =
      { totalReturn := ((l.filter (fun r => r.scenarioId == id)).map
          (fun r => rawReturn r.entryPrice r.exitPrice)).sum,
        wins := (l.filter (fun r => r.scenarioId == id)).countP
          (fun r => decide (0 < rawReturn r.entryPrice r.exitPrice)),
        count := (l.filter (fun r => r.scenarioId == id)).length } := by
  rw [statsFor, foldl_stepStat]
  simp

/-- The report summary restated through the report's own coins array
(definitional: both sides fold the same analyzed-coins list). -/
theorem buildReport_summary_eq (env : FetchEnv) (coins : List CoinInfo)
    (months maxCoins : ℕ) :
    (buildListingStrategyReport env coins months maxCoins).summary =
      LISTING_SCENARIOS.map fun scenario =>
        mkScenarioSummary scenario (statsFor scenario.id
          ((buildListingStrategyReport env coins months maxCoins).coins.flatMap
            (·.scenarios))) := rfl

/-- C8 (amended): each summary entry aggregates the results carrying its
scenario id across all coin analyses of the same report: `sampleSize` is
their count; `averageReturn` is the mean of their RAW (unrounded) returns
rounded to 2 decimals, `null` on an empty sample; and `successRate` is the
percentage (0–100) of results with positive raw return, rounded to 1
decimal, `null` on an empty sample. -/
theorem C8_summary_aggregates (env : FetchEnv) (coins : List CoinInfo)
    (months maxCoins : ℕ) :
    ∀ s ∈ (buildListingStrategyReport env coins months maxCoins).summary,
      s.sampleSize =
        (resultsFor (buildListingStrategyReport env coins months maxCoins)
          s.scenarioId).length ∧
      s.averageReturn =
        (if (resultsFor (buildListingStrategyReport env coins months maxCoins)
              s.scenarioId).length = 0 then none
         else some (round2
           (((resultsFor (buildListingStrategyReport env coins months maxCoins)
                s.scenarioId).map
              (fun r => rawReturn r.entryPrice r.exitPrice)).sum /
            ((resultsFor (buildListingStrategyReport env coins months maxCoins)
                s.scenarioId).length : ℚ)))) ∧
      s.successRate =
        (if (resultsFor (buildListingStrategyReport env coins months maxCoins)
              s.scenarioId).length = 0 then none
         else some (round1
           ((((resultsFor (buildListingStrategyReport env coins months maxCoins)
                 s.scenarioId).countP
               (fun r => decide (0 < rawReturn r.entryPrice r.exitPrice))) : ℚ) /
            ((resultsFor (buildListingStrategyReport env coins months maxCoins)
                s.scenarioId).length : ℚ) * 100))) := by
  intro s hs
  rw [buildReport_summary_eq] at hs
  rw [List.mem_map] at hs
  obtain ⟨sc, hsc, rfl⟩ := hs
  rw [show (mkScenarioSummary sc (statsFor sc.id
      ((buildListingStrategyReport env coins months maxCoins).coins.flatMap
        (·.scenarios)))).scenarioId = sc.id from rfl]
  rw [show resultsFor (buildListingStrategyReport env coins months maxCoins) sc.id =
      (((buildListingStrategyReport env coins months maxCoins).coins.flatMap
        (·.scenarios)).filter (fun r => r.scenarioId == sc.id)) from rfl]
  simp only [mkScenarioSummary, statsFor_spec]
  exact ⟨by trivial, by trivial, by trivial⟩

/-- The coins array of the concrete `envC8` run: two analyzed coins, one
with raw `D0_OPEN` return 0.004 % and one with 0.006 %. -/
theorem reportC8_coins :
    (buildListingStrategyReport envC8 [coin0, coinB0] 3 150).coins =
      [analysisOf coin0 25000 24999, analysisOf coinB0 50000 49997] := by
  have hA := analyzeCoin_flatKlines envC8 coin0 25000 24999
    (by norm_num) (by norm_num)
    (fun c => rfl) (fun s => rfl) (fun s => rfl) (fun t => rfl) (fun s e => rfl)
  have hB := analyzeCoin_flatKlines envC8 coinB0 50000 49997
    (by norm_num) (by norm_num)
    (fun c => rfl) (fun s => rfl) (fun s => rfl) (fun t => rfl) (fun s e => rfl)
  simp only [buildListingStrategyReport]
  rw [show envC8.monthsAgoMs 3 = 0 from rfl]
  simp [hA, hB]

/-- The `D0_OPEN_HIGH` accumulator over the six results of the `envC8`
run: raw returns 1/250 and 3/500 sum to 1/100 with two wins. -/
theorem statsC8 :
    statsFor "D0_OPEN_HIGH"
      [resH 25000 24999, resM 25000 24999, resL 25000 24999,
       resH 50000 49997, resM 50000 49997, resL 50000 49997] =
      ⟨1 / 100, 2, 2⟩ := by
  rw [statsFor_spec]
  rw [show List.filter (fun r => r.scenarioId == "D0_OPEN_HIGH")
      [resH 25000 24999, resM 25000 24999, resL 25000 24999,
       resH 50000 49997, resM 50000 49997, resL 50000 49997] =
      [resH 25000 24999, resH 50000 49997] from by simp [resH, resM, resL]]
  norm_num [resH, rawReturn]

/-- Evaluation of the `D0_OPEN_HIGH` summary entry of the `envC8` run. -/
theorem summaryC8_eval :
    mkScenarioSummary
      ⟨"D0_OPEN_HIGH", "상장 직후 숏 · 최고가",
        "상장 순간에 진입 후 24시간 보유 (최고가 진입)", 0, .HIGH⟩
      ⟨1 / 100, 2, 2⟩ = summaryC8 := by
  simp only [mkScenarioSummary, summaryC8]
  norm_num [round2, round1, round_eq, Int.floor_eq_iff]

/-- The `envC8` report's summary entry found for `D0_OPEN_HIGH`. -/
theorem reportC8_summary_find :
    (buildListingStrategyReport envC8 [coin0, coinB0] 3 150).summary.find?
      (fun s => s.scenarioId == "D0_OPEN_HIGH") = some summaryC8 := by
  rw [buildReport_summary_eq, reportC8_coins]
  rw [show ([analysisOf coin0 25000 24999, analysisOf coinB0 50000 49997].flatMap
      (·.scenarios)) =
      [resH 25000 24999, resM 25000 24999, resL 25000 24999,
       resH 50000 49997, resM 50000 49997, resL 50000 49997] from by
    simp [analysisOf]]
  rw [show LISTING_SCENARIOS =
      ⟨"D0_OPEN_HIGH", "상장 직후 숏 · 최고가",
        "상장 순간에 진입 후 24시간 보유 (최고가 진입)", 0, .HIGH⟩ ::
      LISTING_SCENARIOS.tail from rfl]
  rw [List.map_cons]
  rw [List.find?_cons_of_pos _ (by rfl)]
  rw [statsC8, summaryC8_eval]

/-- The `D0_OPEN_HIGH` results of the `envC8` report. -/
theorem resultsForC8 :
    resultsFor (buildListingStrategyReport envC8 [coin0, coinB0] 3 150)
      "D0_OPEN_HIGH" = [resH 25000 24999, resH 50000 49997] := by
  rw [resultsFor, reportC8_coins]
  simp [analysisOf, resH, resM, resL]

/-- C8 counterexample: in the `envC8` run the `D0_OPEN_HIGH` sample holds
two results with raw returns 0.004 % and 0.006 % (stored rounded returns 0
and 0.01).  The report stores `averageReturn = 0.01` — the rounded mean of
the raw returns — while the mean of the results' returns is 0.005 under
both the stored and the raw reading; and it stores `successRate = 100`, a
percentage, where the fraction of positive-return results is 1 (raw
reading) or 1/2 (stored reading).  This refutes the claim as stated. -/
theorem C8_counterexample :
    (buildListingStrategyReport envC8 [coin0, coinB0] 3 150).summary.find?
      (fun s => s.scenarioId == "D0_OPEN_HIGH") = some summaryC8 ∧
    resultsFor (buildListingStrategyReport envC8 [coin0, coinB0] 3 150)
      "D0_OPEN_HIGH" = [resH 25000 24999, resH 50000 49997] ∧
    summaryC8.averageReturn = some (1 / 100) ∧
    ((resH 25000 24999).returnPct + (resH 50000 49997).returnPct) / 2 = 1 / 200 ∧
    (rawReturn 25000 24999 + rawReturn 50000 49997) / 2 = 1 / 200 ∧
    (1 / 100 : ℚ) ≠ 1 / 200 ∧
    summaryC8.successRate = some 100 ∧
    (100 : ℚ) ≠ 1 ∧ (100 : ℚ) ≠ 1 / 2 := by
  refine ⟨reportC8_summary_find, resultsForC8, rfl, ?_, ?_, by norm_num, rfl,
    by norm_num, by norm_num⟩
  · show (round2 (rawReturn 25000 24999) + round2 (rawReturn 50000 49997)) / 2 = 1 / 200
    norm_num [round2, rawReturn, round_eq, Int.floor_eq_iff]
  · norm_num [rawReturn]

/-- C8 witness: the amended aggregate relationship applied to the
`D0_OPEN_HIGH` summary entry of the `envC8` run. -/
theorem C8_summary_aggregates_witness :
    summaryC8 ∈ (buildListingStrategyReport envC8 [coin0, coinB0] 3 150).summary ∧
    (summaryC8.sampleSize =
        (resultsFor (buildListingStrategyReport envC8 [coin0, coinB0] 3 150)
          summaryC8.scenarioId).length ∧
      summaryC8.averageReturn =
        (if (resultsFor (buildListingStrategyReport envC8 [coin0, coinB0] 3 150)
              summaryC8.scenarioId).length = 0 then none
         else some (round2
           (((resultsFor (buildListingStrategyReport envC8 [coin0, coinB0] 3 150)
                summaryC8.scenarioId).map
              (fun r => rawReturn r.entryPrice r.exitPrice)).sum /
            ((resultsFor (buildListingStrategyReport envC8 [coin0, coinB0] 3 150)
                summaryC8.scenarioId).length : ℚ)))) ∧
      summaryC8.successRate =
        (if (resultsFor (buildListingStrategyReport envC8 [coin0, coinB0] 3 150)
              summaryC8.scenarioId).length = 0 then none
         else some (round1
           ((((resultsFor (buildListingStrategyReport envC8 [coin0, coinB0] 3 150)
                 summaryC8.scenarioId).countP
               (fun r => decide (0 < rawReturn r.entryPrice r.exitPrice))) : ℚ) /
            ((resultsFor (buildListingStrategyReport envC8 [coin0, coinB0] 3 150)
                summaryC8.scenarioId).length : ℚ) * 100)))) := by
  have hmem : summaryC8 ∈
      (buildListingStrategyReport envC8 [coin0, coinB0] 3 150).summary :=
    List.mem_of_find?_eq_some reportC8_summary_find
  exact ⟨hmem, C8_summary_aggregates envC8 [coin0, coinB0] 3 150 summaryC8 hmem⟩

end UpbitAlphaDesk
